import Mathlib

/-!
Shallow embedding of the `bytering` crate (`src/lib.rs`): a fixed-capacity
SPSC byte ring buffer.  Machine integers (`usize`) are modelled as `Nat`
with explicit bounds where overflow matters; Rust panics are modelled as
`none` / a `panic` result constructor; the caller-supplied closure `f` is
modelled as a pure function from the views and the total length to
`Except E Nat`.
-/

namespace ByteRing

/-- Rust `Range<usize>` as used in `lib.rs`: a half-open byte range.
The Rust field `end` is a Lean keyword, so it is called `stop` here. -/
structure Rg where
  start : Nat
  stop : Nat
deriving DecidableEq, Repr

/-- Rust `range_len` from `lib.rs`: `r.end - r.start`. -/
def range_len (r : Rg) : Nat := r.stop - r.start

/-- Rust `filled_ranges(buflen, mask, read, write)` from `lib.rs` lines
139-161, translated verbatim (the local `end`/`endw` become
`stop`/`stopw`). -/
def filled_ranges (buflen mask read write : Nat) : (Rg × Rg) × Nat :=
  let len := write - read
  let start := read &&& mask
  let stop := start + len
  let stopw := stop &&& mask
  let ranges := if stop = stopw then (⟨start, stop⟩, ⟨0, 0⟩) else (⟨start, buflen⟩, ⟨0, stopw⟩)
  (ranges, len)

/-- Rust `empty_ranges(buflen, mask, read, write)` from `lib.rs` lines
165-187, translated verbatim. -/
def empty_ranges (buflen mask read write : Nat) : (Rg × Rg) × Nat :=
  let len := buflen - (write - read)
  let start := write &&& mask
  let stop := start + len
  let stopw := stop &&& mask
  let ranges := if stop = stopw then (⟨start, stop⟩, ⟨0, 0⟩) else (⟨start, buflen⟩, ⟨0, stopw⟩)
  (ranges, len)

/-- Membership of a byte offset in the union of a pair of half-open ranges. -/
def covers (p : Rg × Rg) (i : Nat) : Prop :=
  (p.1.start ≤ i ∧ i < p.1.stop) ∨ (p.2.start ≤ i ∧ i < p.2.stop)

instance (p : Rg × Rg) (i : Nat) : Decidable (covers p i) := by
  unfold covers
  infer_instance

-- Sanity checks mirroring the crate's unit tests `test_filled_ranges` and
-- `test_empty_ranges`.
example : filled_ranges 16 15 2 13 = ((⟨2, 13⟩, ⟨0, 0⟩), 11) := by decide
example : filled_ranges 16 15 17 20 = ((⟨1, 4⟩, ⟨0, 0⟩), 3) := by decide
example : filled_ranges 16 15 10 20 = ((⟨10, 16⟩, ⟨0, 4⟩), 10) := by decide
example : filled_ranges 16 15 16 20 = ((⟨0, 4⟩, ⟨0, 0⟩), 4) := by decide
example : filled_ranges 16 15 0 16 = ((⟨0, 16⟩, ⟨0, 0⟩), 16) := by decide
example : filled_ranges 16 15 0 0 = ((⟨0, 0⟩, ⟨0, 0⟩), 0) := by decide
example : empty_ranges 16 15 2 13 = ((⟨13, 16⟩, ⟨0, 2⟩), 5) := by decide
example : empty_ranges 16 15 13 17 = ((⟨1, 13⟩, ⟨0, 0⟩), 12) := by decide
example : empty_ranges 16 15 0 16 = ((⟨0, 0⟩, ⟨0, 0⟩), 0) := by decide
example : empty_ranges 16 15 0 0 = ((⟨0, 16⟩, ⟨0, 0⟩), 16) := by decide
example : empty_ranges 16 15 15 15 = ((⟨15, 16⟩, ⟨0, 15⟩), 16) := by decide
example : empty_ranges 16 15 16 16 = ((⟨0, 16⟩, ⟨0, 0⟩), 16) := by decide

/-! Arithmetic helper lemmas for the mask computations. -/

lemma two_pow_pos (k : Nat) : 0 < 2 ^ k := Nat.pos_pow_of_pos k (by decide)

lemma mod_two_pow_lt (x k : Nat) : x % 2 ^ k < 2 ^ k := Nat.mod_lt _ (two_pow_pos k)

/-- Computation of `filled_ranges` at a power-of-two capacity in the
no-wrap case. -/
lemma filled_ranges_nowrap (k read write : Nat)
    (h : read % 2 ^ k + (write - read) < 2 ^ k) :
    filled_ranges (2 ^ k) (2 ^ k - 1) read write =
      ((⟨read % 2 ^ k, read % 2 ^ k + (write - read)⟩, ⟨0, 0⟩), write - read) := by
  simp only [filled_ranges, Nat.and_pow_two_sub_one_eq_mod]
  rw [Nat.mod_eq_of_lt h]
  simp

/-- Computation of `filled_ranges` at a power-of-two capacity in the
wrap case. -/
lemma filled_ranges_wrap (k read write : Nat) (hw : write - read ≤ 2 ^ k)
    (h : 2 ^ k ≤ read % 2 ^ k + (write - read)) :
    filled_ranges (2 ^ k) (2 ^ k - 1) read write =
      ((⟨read % 2 ^ k, 2 ^ k⟩, ⟨0, read % 2 ^ k + (write - read) - 2 ^ k⟩), write - read) := by
  have hs : read % 2 ^ k < 2 ^ k := mod_two_pow_lt read k
  have hmod : (read % 2 ^ k + (write - read)) % 2 ^ k
      = read % 2 ^ k + (write - read) - 2 ^ k := by
    rw [Nat.mod_eq_sub_mod h, Nat.mod_eq_of_lt (by omega)]
  simp only [filled_ranges, Nat.and_pow_two_sub_one_eq_mod]
  rw [hmod, if_neg (by omega)]

/-- Computation of `empty_ranges` at a power-of-two capacity in the
no-wrap case. -/
lemma empty_ranges_nowrap (k read write : Nat)
    (h : write % 2 ^ k + (2 ^ k - (write - read)) < 2 ^ k) :
    empty_ranges (2 ^ k) (2 ^ k - 1) read write =
      ((⟨write % 2 ^ k, write % 2 ^ k + (2 ^ k - (write - read))⟩, ⟨0, 0⟩),
        2 ^ k - (write - read)) := by
  simp only [empty_ranges, Nat.and_pow_two_sub_one_eq_mod]
  rw [Nat.mod_eq_of_lt h]
  simp

/-- Computation of `empty_ranges` at a power-of-two capacity in the
wrap case. -/
lemma empty_ranges_wrap (k read write : Nat)
    (h : 2 ^ k ≤ write % 2 ^ k + (2 ^ k - (write - read))) :
    empty_ranges (2 ^ k) (2 ^ k - 1) read write =
      ((⟨write % 2 ^ k, 2 ^ k⟩, ⟨0, write % 2 ^ k + (2 ^ k - (write - read)) - 2 ^ k⟩),
        2 ^ k - (write - read)) := by
  have hs : write % 2 ^ k < 2 ^ k := mod_two_pow_lt write k
  have hd : 2 ^ k - (write - read) ≤ 2 ^ k := Nat.sub_le _ _
  have hmod : (write % 2 ^ k + (2 ^ k - (write - read))) % 2 ^ k
      = write % 2 ^ k + (2 ^ k - (write - read)) - 2 ^ k := by
    rw [Nat.mod_eq_sub_mod h, Nat.mod_eq_of_lt (by omega)]
  simp only [empty_ranges, Nat.and_pow_two_sub_one_eq_mod]
  rw [hmod, if_neg (by omega)]

/-- Connection between the offset of the write counter and the offset of the
read counter: `write % c = (read % c + (write - read)) % c` when
`read ≤ write`. -/
lemma write_mod_eq (c read write : Nat) (hr : read ≤ write) :
    write % c = (read % c + (write - read)) % c := by
  conv_lhs => rw [show write = read + (write - read) by omega]
  rw [Nat.mod_add_mod]

/-- Specification-side transcription of the documented behaviour of
`filled_ranges`: with `len = write - read` and `start = read & mask`, the
result is `([start..start+len, 0..0], len)` when `(start+len) & mask`
equals `start+len` (no wrap), and `([start..capacity, 0..(start+len) & mask], len)`
otherwise (wrap).  Written from the spec text, to be compared with the
source-derived `filled_ranges`. -/
def filled_ranges_spec (capacity mask read write : Nat) : (Rg × Rg) × Nat :=
  let len := write - read
  let start := read &&& mask
  if (start + len) &&& mask = start + len then
    ((⟨start, start + len⟩, ⟨0, 0⟩), len)
  else
    ((⟨start, capacity⟩, ⟨0, (start + len) &&& mask⟩), len)

/-- C1: for every capacity that is a power of two with `mask = capacity - 1`,
and counters with `read ≤ write` and `write - read ≤ capacity`,
`filled_ranges` computes `len = write - read`, `start = read & mask`, and
returns `[start..start+len, 0..0]` when `(start+len) & mask = start+len`
(no wrap) and `[start..capacity, 0..(start+len) & mask]` otherwise, with
total length `len`. -/
theorem filled_ranges_matches_spec (k capacity mask read write : Nat)
    (hc : capacity = 2 ^ k) (hm : mask = capacity - 1)
    (hr : read ≤ write) (hw : write - read ≤ capacity) :
    filled_ranges capacity mask read write = filled_ranges_spec capacity mask read write := by
  simp only [filled_ranges, filled_ranges_spec]
  by_cases h : (read &&& mask) + (write - read) = ((read &&& mask) + (write - read)) &&& mask
  · rw [if_pos h, if_pos h.symm]
  · rw [if_neg h, if_neg fun hh => h hh.symm]

/-- Witness for `filled_ranges_matches_spec` at scenario B of the spec
(`capacity = 16`, `read = 10`, `write = 20`). -/
theorem filled_ranges_matches_spec_witness :
    filled_ranges 16 15 10 20 = filled_ranges_spec 16 15 10 20 :=
  filled_ranges_matches_spec 4 16 15 10 20 (by decide) (by decide) (by decide) (by decide)

/-- C2: for every valid input, the byte offsets covered by the two ranges
of `filled_ranges` and those covered by the two ranges of `empty_ranges`
are disjoint, and their union is exactly `[0, capacity)`. -/
theorem filled_empty_partition (k capacity mask read write i : Nat)
    (hc : capacity = 2 ^ k) (hm : mask = capacity - 1)
    (hr : read ≤ write) (hw : write - read ≤ capacity) :
    ¬(covers (filled_ranges capacity mask read write).1 i ∧
        covers (empty_ranges capacity mask read write).1 i) ∧
    (i < capacity ↔
      covers (filled_ranges capacity mask read write).1 i ∨
        covers (empty_ranges capacity mask read write).1 i) := by
  subst hc
  subst hm
  have hs : read % 2 ^ k < 2 ^ k := mod_two_pow_lt read k
  have hse : write % 2 ^ k < 2 ^ k := mod_two_pow_lt write k
  have hkey : write % 2 ^ k = (read % 2 ^ k + (write - read)) % 2 ^ k :=
    write_mod_eq _ _ _ hr
  by_cases hcase : read % 2 ^ k + (write - read) < 2 ^ k
  · -- the filled region does not wrap, so the empty region wraps
    have he : write % 2 ^ k = read % 2 ^ k + (write - read) := by
      rw [hkey, Nat.mod_eq_of_lt hcase]
    rw [filled_ranges_nowrap k read write hcase, empty_ranges_wrap k read write (by omega)]
    simp only [covers]
    constructor
    · omega
    · omega
  · -- the filled region wraps, so the empty region does not
    have he : write % 2 ^ k = read % 2 ^ k + (write - read) - 2 ^ k := by
      rw [hkey, Nat.mod_eq_sub_mod (by omega), Nat.mod_eq_of_lt (by omega)]
    rw [filled_ranges_wrap k read write hw (by omega),
        empty_ranges_nowrap k read write (by omega)]
    simp only [covers]
    constructor
    · omega
    · omega

/-- Witness for `filled_empty_partition` at `capacity = 16`, `read = 10`,
`write = 20`, offset `i = 5`. -/
theorem filled_empty_partition_witness :
    ¬(covers (filled_ranges 16 15 10 20).1 5 ∧ covers (empty_ranges 16 15 10 20).1 5) ∧
    (5 < 16 ↔
      covers (filled_ranges 16 15 10 20).1 5 ∨ covers (empty_ranges 16 15 10 20).1 5) :=
  filled_empty_partition 4 16 15 10 20 5 (by decide) (by decide) (by decide) (by decide)

/-- C3: for every valid input, the lengths of the two ranges of
`filled_ranges` sum to `write - read`, the lengths of the two ranges of
`empty_ranges` sum to `capacity - (write - read)`, and each sum equals the
total length the function reports. -/
theorem range_length_sums (k capacity mask read write : Nat)
    (hc : capacity = 2 ^ k) (hm : mask = capacity - 1)
    (hr : read ≤ write) (hw : write - read ≤ capacity) :
    range_len (filled_ranges capacity mask read write).1.1 +
        range_len (filled_ranges capacity mask read write).1.2 = write - read ∧
    (filled_ranges capacity mask read write).2 = write - read ∧
    range_len (empty_ranges capacity mask read write).1.1 +
        range_len (empty_ranges capacity mask read write).1.2 =
      capacity - (write - read) ∧
    (empty_ranges capacity mask read write).2 = capacity - (write - read) := by
  subst hc
  subst hm
  have hs : read % 2 ^ k < 2 ^ k := mod_two_pow_lt read k
  have hse : write % 2 ^ k < 2 ^ k := mod_two_pow_lt write k
  have hkey : write % 2 ^ k = (read % 2 ^ k + (write - read)) % 2 ^ k :=
    write_mod_eq _ _ _ hr
  by_cases hcase : read % 2 ^ k + (write - read) < 2 ^ k
  · have he : write % 2 ^ k = read % 2 ^ k + (write - read) := by
      rw [hkey, Nat.mod_eq_of_lt hcase]
    rw [filled_ranges_nowrap k read write hcase, empty_ranges_wrap k read write (by omega),
      he]
    simp only [range_len, and_true, true_and]
    omega
  · have he : write % 2 ^ k = read % 2 ^ k + (write - read) - 2 ^ k := by
      rw [hkey, Nat.mod_eq_sub_mod (by omega), Nat.mod_eq_of_lt (by omega)]
    rw [filled_ranges_wrap k read write hw (by omega),
        empty_ranges_nowrap k read write (by omega), he]
    simp only [range_len, and_true, true_and]
    omega

/-- Witness for `range_length_sums` at scenario F of the spec
(`capacity = 16`, `read = 13`, `write = 17`). -/
theorem range_length_sums_witness :
    range_len (filled_ranges 16 15 13 17).1.1 + range_len (filled_ranges 16 15 13 17).1.2 =
        17 - 13 ∧
    (filled_ranges 16 15 13 17).2 = 17 - 13 ∧
    range_len (empty_ranges 16 15 13 17).1.1 + range_len (empty_ranges 16 15 13 17).1.2 =
        16 - (17 - 13) ∧
    (empty_ranges 16 15 13 17).2 = 16 - (17 - 13) :=
  range_length_sums 4 16 15 13 17 (by decide) (by decide) (by decide) (by decide)

/-- C6: when the buffer is empty (`read = write`), `filled_ranges` reports
total length 0 with both ranges empty, and `empty_ranges` reports total
length `capacity`, shaped `[read & mask .. capacity), [0 .. read & mask)`
when `read & mask > 0` and `[0..capacity), [0..0)` when `read & mask = 0`;
in particular `empty_ranges 16 15 15 15 = ([15..16, 0..15], 16)`. -/
theorem empty_buffer_ranges (k capacity mask read : Nat)
    (hc : capacity = 2 ^ k) (hm : mask = capacity - 1) :
    (filled_ranges capacity mask read read).2 = 0 ∧
    range_len (filled_ranges capacity mask read read).1.1 = 0 ∧
    range_len (filled_ranges capacity mask read read).1.2 = 0 ∧
    (0 < read &&& mask →
      empty_ranges capacity mask read read =
        ((⟨read &&& mask, capacity⟩, ⟨0, read &&& mask⟩), capacity)) ∧
    (read &&& mask = 0 →
      empty_ranges capacity mask read read = ((⟨0, capacity⟩, ⟨0, 0⟩), capacity)) ∧
    empty_ranges 16 15 15 15 = ((⟨15, 16⟩, ⟨0, 15⟩), 16) := by
  subst hc
  subst hm
  have hs : read % 2 ^ k < 2 ^ k := mod_two_pow_lt read k
  have hmain : filled_ranges (2 ^ k) (2 ^ k - 1) read read =
      ((⟨read % 2 ^ k, read % 2 ^ k + (read - read)⟩, ⟨0, 0⟩), read - read) :=
    filled_ranges_nowrap k read read (by omega)
  have hempty : empty_ranges (2 ^ k) (2 ^ k - 1) read read =
      ((⟨read % 2 ^ k, 2 ^ k⟩, ⟨0, read % 2 ^ k + (2 ^ k - (read - read)) - 2 ^ k⟩),
        2 ^ k - (read - read)) :=
    empty_ranges_wrap k read read (by omega)
  refine ⟨?_, ?_, ?_, ?_, ?_, by decide⟩
  · rw [hmain]; simp
  · rw [hmain]; simp [range_len]
  · rw [hmain]; simp [range_len]
  · intro hpos
    rw [hempty]
    rw [Nat.and_pow_two_sub_one_eq_mod]
    have h1 : read % 2 ^ k + (2 ^ k - (read - read)) - 2 ^ k = read % 2 ^ k := by omega
    have h2 : 2 ^ k - (read - read) = 2 ^ k := by omega
    rw [h1, h2]
  · intro hzero
    rw [Nat.and_pow_two_sub_one_eq_mod] at hzero
    rw [hempty, hzero]
    have h1 : 0 + (2 ^ k - (read - read)) - 2 ^ k = 0 := by omega
    have h2 : 2 ^ k - (read - read) = 2 ^ k := by omega
    rw [h1, h2]

/-- Witness for `empty_buffer_ranges` at `capacity = 16`, `read = write = 15`,
scenario E of the spec. -/
theorem empty_buffer_ranges_witness :
    (filled_ranges 16 15 15 15).2 = 0 ∧
    range_len (filled_ranges 16 15 15 15).1.1 = 0 ∧
    range_len (filled_ranges 16 15 15 15).1.2 = 0 ∧
    (0 < 15 &&& 15 →
      empty_ranges 16 15 15 15 = ((⟨15 &&& 15, 16⟩, ⟨0, 15 &&& 15⟩), 16)) ∧
    (15 &&& 15 = 0 → empty_ranges 16 15 15 15 = ((⟨0, 16⟩, ⟨0, 0⟩), 16)) ∧
    empty_ranges 16 15 15 15 = ((⟨15, 16⟩, ⟨0, 15⟩), 16) :=
  empty_buffer_ranges 4 16 15 15 (by decide) (by decide)

/-!
Construction (`Buffer::new`, `AlignedData::new`, `lib.rs` lines 46-65 and
346-359) and the synchronized operations (`BufferInner::synced_read`,
`BufferInner::synced_write`, lines 99-134).  The target is 64-bit, the
allocator is external: the address it returns is a parameter of the model
(`0` models a null return).  Rust panics (`assert!`, `unwrap`) are
modelled as `none`, or as the `panic` constructor of `SyncResult`.
-/

/-- Rust `usize::MAX` on the modelled 64-bit target. -/
def USIZE_MAX : Nat := 2 ^ 64 - 1

/-- Rust `isize::MAX` on the modelled 64-bit target. -/
def ISIZE_MAX : Nat := 2 ^ 63 - 1

/-- Rust `usize::is_power_of_two`.  On the modelled 64-bit target a `usize`
value is a power of two exactly when it equals `2 ^ k` for some `k < 64`. -/
def is_power_of_two (n : Nat) : Bool :=
  (List.range 64).any fun k => n == 2 ^ k

/-- Rust `usize::checked_add` on the modelled 64-bit target: `none` when
the exact sum does not fit into a `usize`. -/
def checked_add (a b : Nat) : Option Nat :=
  if a + b ≤ USIZE_MAX then some (a + b) else none

/-- Rust `core::alloc::Layout`: the size and alignment of an allocation. -/
structure Layout where
  size : Nat
  align : Nat
deriving DecidableEq

/-- Rust `Layout::from_size_align(size, align)`: errors unless `align` is a
power of two and `size` rounded up to `align` does not overflow `isize`. -/
def Layout.from_size_align (size align : Nat) : Option Layout :=
  if is_power_of_two align ∧ size ≤ ISIZE_MAX - (align - 1) then some ⟨size, align⟩
  else none

/-- Rust `AlignedData` from `lib.rs`: an owned heap allocation.  The raw
pointer is modelled by its numeric address and the pointed-to storage by a
byte list. -/
structure AlignedData where
  addr : Nat
  layout : Layout
  bytes : List Nat
deriving DecidableEq

/-- Rust `AlignedData::new(size, align)` from `lib.rs` lines 346-359:
asserts `size ≠ 0`, builds the layout (`unwrap` panics on a bad layout),
calls `alloc_zeroed` (modelled by the external address `addr`, with `0` a
null return that makes `NonNull::new(..).unwrap()` panic, and with
zero-initialized bytes), and asserts the returned address is aligned.
`none` models any of those panics. -/
def AlignedData.new (size align addr : Nat) : Option AlignedData :=
  if size = 0 then none
  else
    match Layout.from_size_align size align with
    | none => none
    | some layout =>
      if addr = 0 then none
      else if addr % align = 0 then some ⟨addr, layout, List.replicate size 0⟩
      else none

/-- Rust `AlignedData::len`. -/
def AlignedData.len (d : AlignedData) : Nat := d.layout.size

/-- Rust view `&data[r.start..r.end]` as produced by `AlignedData::slices`
and `AlignedData::slices_mut`. -/
def AlignedData.slice (d : AlignedData) (r : Rg) : List Nat :=
  (d.bytes.drop r.start).take (range_len r)

/-- Rust `AlignedData::slices` / `slices_mut`: the pair of views described
by a pair of ranges. -/
def AlignedData.slices (d : AlignedData) (p : Rg × Rg) : List Nat × List Nat :=
  (d.slice p.1, d.slice p.2)

/-- Rust `BufferInner` from `lib.rs`: the two counters, the capacity mask
and the storage.  The atomics are plain naturals in the model because each
modelled operation is one whole synchronized transaction. -/
structure BufferInner where
  read : Nat
  write : Nat
  mask : Nat
  data : AlignedData
deriving DecidableEq

/-- Rust `Buffer::new(size, align)` from `lib.rs` lines 46-65: asserts
`size` is a power of two, computes `mask = size - 1`, allocates, and
initializes both counters to zero.  `addr` is the external allocator's
returned address; `none` models a panic. -/
def Buffer.new (size align addr : Nat) : Option BufferInner :=
  if is_power_of_two size then
    match AlignedData.new size align addr with
    | some data => some { read := 0, write := 0, mask := size - 1, data := data }
    | none => none
  else none

/-- Result of one synchronized operation.  `panic` models the Rust panic on
checked-add overflow; `error e s` is the closure's error propagated with
the untouched state `s` (the error path performs no counter store); `ok n
s` is the reported count with the updated state. -/
inductive SyncResult (E : Type) where
  | panic : SyncResult E
  | error : E → BufferInner → SyncResult E
  | ok : Nat → BufferInner → SyncResult E
deriving DecidableEq

/-- Rust `BufferInner::synced_read` from `lib.rs` lines 99-115, the
producer-side fill: loads `write` then `read`, computes `empty_ranges`,
hands the two (mutable) views and the total length to `f`, and on success
stores `write + n` computed by checked addition. -/
def BufferInner.synced_read {E : Type} (s : BufferInner)
    (f : List Nat × List Nat → Nat → Except E Nat) : SyncResult E :=
  let w := s.write
  let r := s.read
  let p := empty_ranges s.data.len s.mask r w
  let bufs := s.data.slices p.1
  match f bufs p.2 with
  | .error e => .error e s
  | .ok n =>
    match checked_add w n with
    | none => .panic
    | some w2 => .ok n { s with write := w2 }

/-- Rust `BufferInner::synced_write` from `lib.rs` lines 118-134, the
consumer-side drain: loads `read` then `write`, computes `filled_ranges`,
hands the two views and the total length to `f`, and on success stores
`read + n` computed by checked addition. -/
def BufferInner.synced_write {E : Type} (s : BufferInner)
    (f : List Nat × List Nat → Nat → Except E Nat) : SyncResult E :=
  let r := s.read
  let w := s.write
  let p := filled_ranges s.data.len s.mask r w
  let bufs := s.data.slices p.1
  match f bufs p.2 with
  | .error e => .error e s
  | .ok n =>
    match checked_add r n with
    | none => .panic
    | some r2 => .ok n { s with read := r2 }

/-- Rust `Reader::position` from `lib.rs` lines 235-241 (the spec calls
this observer `Consumer::bytes_produced`): loads the `write` counter. -/
def Reader.position (s : BufferInner) : Nat := s.write

/-- Rust `Writer::position` from `lib.rs` lines 305-310 (the spec calls
this observer `Producer::bytes_consumed`): loads the `read` counter. -/
def Writer.position (s : BufferInner) : Nat := s.read

/-- Total lengths reported by the range functions, read off their
definitions. -/
lemma empty_ranges_total (b m r w : Nat) : (empty_ranges b m r w).2 = b - (w - r) := rfl

lemma filled_ranges_total (b m r w : Nat) : (filled_ranges b m r w).2 = w - r := rfl

/-- Inversion of a successful `synced_read`: only `write` changes, by
exactly the count `f` returned, and the checked addition did not
overflow. -/
lemma synced_read_ok_inv {E : Type} (s : BufferInner)
    (f : List Nat × List Nat → Nat → Except E Nat) (n : Nat) (s1 : BufferInner)
    (h : BufferInner.synced_read s f = .ok n s1) :
    s1.read = s.read ∧ s1.write = s.write + n ∧ s1.mask = s.mask ∧ s1.data = s.data ∧
      s.write + n ≤ USIZE_MAX := by
  simp only [BufferInner.synced_read] at h
  split at h
  · exact SyncResult.noConfusion h
  · rename_i m hf
    split at h
    · exact SyncResult.noConfusion h
    · rename_i w2 hadd
      cases h
      simp only [checked_add] at hadd
      split at hadd
      · rename_i hle
        cases hadd
        exact ⟨rfl, rfl, rfl, rfl, hle⟩
      · exact Option.noConfusion hadd

/-- Inversion of a successful `synced_write`: only `read` changes, by
exactly the count `f` returned, and the checked addition did not
overflow. -/
lemma synced_write_ok_inv {E : Type} (s : BufferInner)
    (f : List Nat × List Nat → Nat → Except E Nat) (n : Nat) (s1 : BufferInner)
    (h : BufferInner.synced_write s f = .ok n s1) :
    s1.read = s.read + n ∧ s1.write = s.write ∧ s1.mask = s.mask ∧ s1.data = s.data ∧
      s.read + n ≤ USIZE_MAX := by
  simp only [BufferInner.synced_write] at h
  split at h
  · exact SyncResult.noConfusion h
  · rename_i m hf
    split at h
    · exact SyncResult.noConfusion h
    · rename_i r2 hadd
      cases h
      simp only [checked_add] at hadd
      split at hadd
      · rename_i hle
        cases hadd
        exact ⟨rfl, rfl, rfl, rfl, hle⟩
      · exact Option.noConfusion hadd

/-- Soundness of the power-of-two check: when it accepts, the value is a
power of two. -/
lemma is_power_of_two_spec (n : Nat) (h : is_power_of_two n = true) : ∃ k, n = 2 ^ k := by
  simp only [is_power_of_two, List.any_eq_true] at h
  obtain ⟨k, hk, hek⟩ := h
  exact ⟨k, by simpa using hek⟩

/-- Inversion of a successful `Buffer::new`: the counters start at zero,
the mask is `size - 1`, the storage is the zeroed allocation at the
aligned external address, and every checked precondition held. -/
lemma Buffer.new_inv (size align addr : Nat) (b : BufferInner)
    (h : Buffer.new size align addr = some b) :
    b.read = 0 ∧ b.write = 0 ∧ b.mask = size - 1 ∧ b.data.addr = addr ∧
      b.data.layout.size = size ∧ b.data.bytes = List.replicate size 0 ∧
      addr % align = 0 ∧ is_power_of_two size = true ∧
      is_power_of_two align = true ∧ size ≠ 0 ∧ addr ≠ 0 := by
  simp only [Buffer.new] at h
  split at h
  · rename_i hpow
    split at h
    · rename_i data hdata
      cases h
      simp only [AlignedData.new] at hdata
      split at hdata
      · exact Option.noConfusion hdata
      · rename_i hsz
        split at hdata
        · exact Option.noConfusion hdata
        · rename_i layout hlay
          split at hdata
          · exact Option.noConfusion hdata
          · rename_i haddr
            split at hdata
            · rename_i hal
              cases hdata
              simp only [Layout.from_size_align] at hlay
              split at hlay
              · rename_i hcond
                cases hlay
                exact ⟨rfl, rfl, rfl, rfl, rfl, rfl, hal, hpow,
                  by simpa using hcond.1, hsz, haddr⟩
              · exact Option.noConfusion hlay
            · exact Option.noConfusion hdata
    · exact Option.noConfusion h
  · exact Option.noConfusion h

/-- C4: the invariants `read ≤ write` and `write - read ≤ capacity` are
preserved by every operation: from a state satisfying them, a successful
`synced_read` (producer-side fill, advancing `write` by `n1 ≤ len`) and a
successful `synced_write` (consumer-side drain, advancing `read` by
`n2 ≤ len`) each yield a state that still satisfies them. -/
theorem synced_ops_preserve_invariants {E : Type} (s s1 s2 : BufferInner)
    (f g : List Nat × List Nat → Nat → Except E Nat) (n1 n2 : Nat)
    (hinv1 : s.read ≤ s.write) (hinv2 : s.write - s.read ≤ s.data.len)
    (h1 : BufferInner.synced_read s f = .ok n1 s1)
    (hn1 : n1 ≤ (empty_ranges s.data.len s.mask s.read s.write).2)
    (h2 : BufferInner.synced_write s g = .ok n2 s2)
    (hn2 : n2 ≤ (filled_ranges s.data.len s.mask s.read s.write).2) :
    (s1.read ≤ s1.write ∧ s1.write - s1.read ≤ s1.data.len) ∧
    (s2.read ≤ s2.write ∧ s2.write - s2.read ≤ s2.data.len) := by
  obtain ⟨hr1, hw1, hm1, hd1, hb1⟩ := synced_read_ok_inv s f n1 s1 h1
  obtain ⟨hr2, hw2, hm2, hd2, hb2⟩ := synced_write_ok_inv s g n2 s2 h2
  rw [empty_ranges_total] at hn1
  rw [filled_ranges_total] at hn2
  rw [hr1, hw1, hd1, hr2, hw2, hd2]
  omega

/-- Witness for `synced_ops_preserve_invariants` at `capacity = 16`,
`read = 2`, `write = 13`, with the closure accepting 4 bytes on the fill
side and 6 bytes on the drain side. -/
theorem synced_ops_preserve_invariants_witness :
    ((2 : Nat) ≤ 17 ∧ 17 - 2 ≤ 16) ∧ ((8 : Nat) ≤ 13 ∧ 13 - 8 ≤ 16) :=
  synced_ops_preserve_invariants
    { read := 2, write := 13, mask := 15,
      data := { addr := 64, layout := { size := 16, align := 8 },
                bytes := List.replicate 16 0 } }
    { read := 2, write := 17, mask := 15,
      data := { addr := 64, layout := { size := 16, align := 8 },
                bytes := List.replicate 16 0 } }
    { read := 8, write := 13, mask := 15,
      data := { addr := 64, layout := { size := 16, align := 8 },
                bytes := List.replicate 16 0 } }
    (fun _ _ => (Except.ok 4 : Except Unit Nat))
    (fun _ _ => (Except.ok 6 : Except Unit Nat)) 4 6
    (by decide) (by decide) (by decide) (by decide) (by decide) (by decide)

/-- C5: each synchronized operation is transactional.  When the closure
returns an error, that exact error is propagated and the state (hence the
view pair a subsequent call computes) is unchanged; when the closure
returns `Ok n` (and the checked addition fits), the operation's own
counter advances by exactly `n` and `Ok n` is returned. -/
theorem synced_ops_transactional {E : Type} (s : BufferInner)
    (f1 f2 g1 g2 : List Nat × List Nat → Nat → Except E Nat)
    (e1 e2 : E) (n1 n2 : Nat) :
    (f1 (s.data.slices (empty_ranges s.data.len s.mask s.read s.write).1)
        (empty_ranges s.data.len s.mask s.read s.write).2 = .error e1 →
      BufferInner.synced_read s f1 = .error e1 s) ∧
    (f2 (s.data.slices (empty_ranges s.data.len s.mask s.read s.write).1)
        (empty_ranges s.data.len s.mask s.read s.write).2 = .ok n1 →
      s.write + n1 ≤ USIZE_MAX →
      BufferInner.synced_read s f2 = .ok n1 { s with write := s.write + n1 }) ∧
    (g1 (s.data.slices (filled_ranges s.data.len s.mask s.read s.write).1)
        (filled_ranges s.data.len s.mask s.read s.write).2 = .error e2 →
      BufferInner.synced_write s g1 = .error e2 s) ∧
    (g2 (s.data.slices (filled_ranges s.data.len s.mask s.read s.write).1)
        (filled_ranges s.data.len s.mask s.read s.write).2 = .ok n2 →
      s.read + n2 ≤ USIZE_MAX →
      BufferInner.synced_write s g2 = .ok n2 { s with read := s.read + n2 }) := by
  refine ⟨fun hf => ?_, fun hf hle => ?_, fun hg => ?_, fun hg hle => ?_⟩
  · simp only [BufferInner.synced_read]
    rw [hf]
  · simp only [BufferInner.synced_read]
    rw [hf]
    simp only [checked_add]
    rw [if_pos hle]
  · simp only [BufferInner.synced_write]
    rw [hg]
  · simp only [BufferInner.synced_write]
    rw [hg]
    simp only [checked_add]
    rw [if_pos hle]

/-- Witness for `synced_ops_transactional` at `capacity = 16`, `read = 2`,
`write = 13`, with an erroring closure (`error 7` resp. `error 9`) and an
accepting closure (`Ok 4` resp. `Ok 6`) on each side. -/
theorem synced_ops_transactional_witness :
    BufferInner.synced_read
        { read := 2, write := 13, mask := 15,
          data := { addr := 64, layout := { size := 16, align := 8 },
                    bytes := List.replicate 16 0 } }
        (fun _ _ => (Except.error 7 : Except Nat Nat)) =
      .error 7
        { read := 2, write := 13, mask := 15,
          data := { addr := 64, layout := { size := 16, align := 8 },
                    bytes := List.replicate 16 0 } } ∧
    BufferInner.synced_read
        { read := 2, write := 13, mask := 15,
          data := { addr := 64, layout := { size := 16, align := 8 },
                    bytes := List.replicate 16 0 } }
        (fun _ _ => (Except.ok 4 : Except Nat Nat)) =
      .ok 4
        { read := 2, write := 13 + 4, mask := 15,
          data := { addr := 64, layout := { size := 16, align := 8 },
                    bytes := List.replicate 16 0 } } ∧
    BufferInner.synced_write
        { read := 2, write := 13, mask := 15,
          data := { addr := 64, layout := { size := 16, align := 8 },
                    bytes := List.replicate 16 0 } }
        (fun _ _ => (Except.error 9 : Except Nat Nat)) =
      .error 9
        { read := 2, write := 13, mask := 15,
          data := { addr := 64, layout := { size := 16, align := 8 },
                    bytes := List.replicate 16 0 } } ∧
    BufferInner.synced_write
        { read := 2, write := 13, mask := 15,
          data := { addr := 64, layout := { size := 16, align := 8 },
                    bytes := List.replicate 16 0 } }
        (fun _ _ => (Except.ok 6 : Except Nat Nat)) =
      .ok 6
        { read := 2 + 6, write := 13, mask := 15,
          data := { addr := 64, layout := { size := 16, align := 8 },
                    bytes := List.replicate 16 0 } } := by
  have T := synced_ops_transactional
    { read := 2, write := 13, mask := 15,
      data := { addr := 64, layout := { size := 16, align := 8 },
                bytes := List.replicate 16 0 } }
    (fun _ _ => (Except.error 7 : Except Nat Nat))
    (fun _ _ => (Except.ok 4 : Except Nat Nat))
    (fun _ _ => (Except.error 9 : Except Nat Nat))
    (fun _ _ => (Except.ok 6 : Except Nat Nat)) 7 9 4 6
  exact ⟨T.1 rfl, T.2.1 rfl (by decide), T.2.2.1 rfl, T.2.2.2 rfl (by decide)⟩

/-- C9: counter updates use checked addition.  A successful `checked_add`
returns the exact mathematical sum; on overflow of the absolute counter
each synchronized operation panics instead of storing a wrapped value. -/
theorem checked_counter_updates {E : Type} (s : BufferInner)
    (f g : List Nat × List Nat → Nat → Except E Nat) (a b n1 n2 : Nat) :
    (∀ c, checked_add a b = some c → c = a + b) ∧
    (USIZE_MAX < a + b → checked_add a b = none) ∧
    (f (s.data.slices (empty_ranges s.data.len s.mask s.read s.write).1)
        (empty_ranges s.data.len s.mask s.read s.write).2 = .ok n1 →
      USIZE_MAX < s.write + n1 → BufferInner.synced_read s f = .panic) ∧
    (g (s.data.slices (filled_ranges s.data.len s.mask s.read s.write).1)
        (filled_ranges s.data.len s.mask s.read s.write).2 = .ok n2 →
      USIZE_MAX < s.read + n2 → BufferInner.synced_write s g = .panic) := by
  refine ⟨fun c hc => ?_, fun hover => ?_, fun hf hover => ?_, fun hg hover => ?_⟩
  · simp only [checked_add] at hc
    split at hc
    · cases hc
      rfl
    · exact Option.noConfusion hc
  · simp only [checked_add]
    rw [if_neg (by omega)]
  · simp only [BufferInner.synced_read]
    rw [hf]
    simp only [checked_add]
    rw [if_neg (by omega)]
  · simp only [BufferInner.synced_write]
    rw [hg]
    simp only [checked_add]
    rw [if_neg (by omega)]

/-- Witness for `checked_counter_updates`: an exact small sum, and panics
of both operations at counters already at `usize::MAX`. -/
theorem checked_counter_updates_witness :
    (3 : Nat) = 1 + 2 ∧
    checked_add USIZE_MAX 1 = none ∧
    BufferInner.synced_read
        { read := USIZE_MAX, write := USIZE_MAX, mask := 15,
          data := { addr := 64, layout := { size := 16, align := 8 },
                    bytes := List.replicate 16 0 } }
        (fun _ _ => (Except.ok 1 : Except Unit Nat)) = .panic ∧
    BufferInner.synced_write
        { read := USIZE_MAX, write := USIZE_MAX, mask := 15,
          data := { addr := 64, layout := { size := 16, align := 8 },
                    bytes := List.replicate 16 0 } }
        (fun _ _ => (Except.ok 1 : Except Unit Nat)) = .panic := by
  have T1 := checked_counter_updates
    { read := USIZE_MAX, write := USIZE_MAX, mask := 15,
      data := { addr := 64, layout := { size := 16, align := 8 },
                bytes := List.replicate 16 0 } }
    (fun _ _ => (Except.ok 1 : Except Unit Nat))
    (fun _ _ => (Except.ok 1 : Except Unit Nat)) 1 2 1 1
  have T2 := checked_counter_updates
    { read := USIZE_MAX, write := USIZE_MAX, mask := 15,
      data := { addr := 64, layout := { size := 16, align := 8 },
                bytes := List.replicate 16 0 } }
    (fun _ _ => (Except.ok 1 : Except Unit Nat))
    (fun _ _ => (Except.ok 1 : Except Unit Nat)) USIZE_MAX 1 1 1
  refine ⟨T1.1 3 (by decide), T2.2.1 (by decide), T1.2.2.1 rfl (by decide),
    T1.2.2.2 rfl (by decide)⟩

/-- Reachable states of the ring, with event accounting: `Trace s p q`
means the state `s` arises from a freshly constructed buffer after any
sequence of successful operations in which the producer side published `p`
bytes in total and the consumer side released `q` bytes in total.
(Operations whose closure errors leave the state unchanged, so they do not
change the reachable set.) -/
inductive Trace : BufferInner → Nat → Nat → Prop where
  | init (size align addr : Nat) (b : BufferInner) :
      Buffer.new size align addr = some b → Trace b 0 0
  | produce {E : Type} (s : BufferInner) (p q : Nat)
      (f : List Nat × List Nat → Nat → Except E Nat) (n : Nat) (s1 : BufferInner) :
      Trace s p q → BufferInner.synced_read s f = .ok n s1 → Trace s1 (p + n) q
  | consume {E : Type} (s : BufferInner) (p q : Nat)
      (g : List Nat × List Nat → Nat → Except E Nat) (n : Nat) (s1 : BufferInner) :
      Trace s p q → BufferInner.synced_write s g = .ok n s1 → Trace s1 p (q + n)

/-- C7: at every reachable state, the observer `Reader::position` (the
spec's `Consumer::bytes_produced`) returns the current `write` counter,
which equals the total number of bytes published so far, and
`Writer::position` (the spec's `Producer::bytes_consumed`) returns the
current `read` counter, which equals the total number of bytes consumed so
far. -/
theorem positions_report_totals (s : BufferInner) (p q : Nat) (h : Trace s p q) :
    (Reader.position s = s.write ∧ Reader.position s = p) ∧
    (Writer.position s = s.read ∧ Writer.position s = q) := by
  induction h with
  | init size align addr b hb =>
    obtain ⟨h0, hw0, -⟩ := Buffer.new_inv size align addr b hb
    exact ⟨⟨rfl, hw0⟩, ⟨rfl, h0⟩⟩
  | produce s p q f n s1 ht hok ih =>
    obtain ⟨hr1, hw1, -, -, -⟩ := synced_read_ok_inv s f n s1 hok
    refine ⟨⟨rfl, ?_⟩, ⟨rfl, ?_⟩⟩
    · simp only [Reader.position] at *
      omega
    · simp only [Writer.position] at *
      omega
  | consume s p q g n s1 ht hok ih =>
    obtain ⟨hr1, hw1, -, -, -⟩ := synced_write_ok_inv s g n s1 hok
    refine ⟨⟨rfl, ?_⟩, ⟨rfl, ?_⟩⟩
    · simp only [Reader.position] at *
      omega
    · simp only [Writer.position] at *
      omega

/-- Witness for `positions_report_totals` on the concrete two-step trace
`Buffer::new(16, 8)` followed by a fill of 3 bytes. -/
theorem positions_report_totals_witness :
    (Reader.position
          { read := 0, write := 3, mask := 15,
            data := { addr := 64, layout := { size := 16, align := 8 },
                      bytes := List.replicate 16 0 } } =
        ({ read := 0, write := 3, mask := 15,
           data := { addr := 64, layout := { size := 16, align := 8 },
                     bytes := List.replicate 16 0 } } : BufferInner).write ∧
      Reader.position
          { read := 0, write := 3, mask := 15,
            data := { addr := 64, layout := { size := 16, align := 8 },
                      bytes := List.replicate 16 0 } } = 0 + 3) ∧
    (Writer.position
          { read := 0, write := 3, mask := 15,
            data := { addr := 64, layout := { size := 16, align := 8 },
                      bytes := List.replicate 16 0 } } =
        ({ read := 0, write := 3, mask := 15,
           data := { addr := 64, layout := { size := 16, align := 8 },
                     bytes := List.replicate 16 0 } } : BufferInner).read ∧
      Writer.position
          { read := 0, write := 3, mask := 15,
            data := { addr := 64, layout := { size := 16, align := 8 },
                      bytes := List.replicate 16 0 } } = 0) :=
  positions_report_totals _ (0 + 3) 0
    (Trace.produce
      { read := 0, write := 0, mask := 15,
        data := { addr := 64, layout := { size := 16, align := 8 },
                  bytes := List.replicate 16 0 } }
      0 0 (fun _ _ => (Except.ok 3 : Except Unit Nat)) 3
      { read := 0, write := 3, mask := 15,
        data := { addr := 64, layout := { size := 16, align := 8 },
                  bytes := List.replicate 16 0 } }
      (Trace.init 16 8 64 _ (by decide)) (by decide))

/-- C8: construction fails fast.  `Buffer::new` panics whenever the
capacity is zero, the capacity is not a power of two, or the alignment is
not a power of two; and whenever it returns, both counters are zero and
the allocated address is an exact multiple of the alignment (a misaligned
allocation also panics, which is why the returned address is always
aligned). -/
theorem buffer_new_checks (size align addr : Nat) :
    ((size = 0 ∨ (¬ ∃ k, size = 2 ^ k) ∨ (¬ ∃ k, align = 2 ^ k)) →
      Buffer.new size align addr = none) ∧
    (∀ b, Buffer.new size align addr = some b →
      b.read = 0 ∧ b.write = 0 ∧ addr % align = 0) := by
  constructor
  · intro hbad
    cases hcheck : Buffer.new size align addr with
    | none => rfl
    | some b =>
      exfalso
      obtain ⟨-, -, -, -, -, -, -, hps, hpa, hsz, -⟩ :=
        Buffer.new_inv size align addr b hcheck
      rcases hbad with h0 | hnp | hna
      · exact hsz h0
      · exact hnp (is_power_of_two_spec size hps)
      · exact hna (is_power_of_two_spec align hpa)
  · intro b hb
    obtain ⟨h1, h2, -, -, -, -, hal, -, -, -, -⟩ := Buffer.new_inv size align addr b hb
    exact ⟨h1, h2, hal⟩

/-- Witness for `buffer_new_checks`: zero capacity panics, and a valid
construction at `capacity = 16`, `align = 8`, address 64 yields zeroed
counters and an aligned address. -/
theorem buffer_new_checks_witness :
    Buffer.new 0 8 64 = none ∧ ((0 : Nat) = 0 ∧ (0 : Nat) = 0 ∧ 64 % 8 = 0) :=
  ⟨(buffer_new_checks 0 8 64).1 (Or.inl rfl),
    (buffer_new_checks 16 8 64).2
      { read := 0, write := 0, mask := 15,
        data := { addr := 64, layout := { size := 16, align := 8 },
                  bytes := List.replicate 16 0 } }
      (by decide)⟩

/-- C10: the storage is zero-initialized at construction.  Immediately
after a successful `Buffer::new(capacity, align)`, the storage holds
exactly `capacity` bytes, every one of which is 0, so any view handed out
before the producer writes exposes only zero bytes. -/
theorem storage_zero_initialized (size align addr : Nat) (b : BufferInner)
    (h : Buffer.new size align addr = some b) :
    b.data.bytes.length = size ∧ ∀ x ∈ b.data.bytes, x = 0 := by
  obtain ⟨-, -, -, -, -, hbytes, -, -, -, -, -⟩ := Buffer.new_inv size align addr b h
  rw [hbytes]
  exact ⟨List.length_replicate _ _, fun x hx => List.eq_of_mem_replicate hx⟩

/-- Witness for `storage_zero_initialized` at `Buffer::new(4, 4)` with the
allocation at address 8. -/
theorem storage_zero_initialized_witness :
    (List.replicate 4 (0 : Nat)).length = 4 ∧ ∀ x ∈ List.replicate 4 (0 : Nat), x = 0 :=
  storage_zero_initialized 4 4 8
    { read := 0, write := 0, mask := 3,
      data := { addr := 8, layout := { size := 4, align := 4 },
                bytes := List.replicate 4 0 } }
    (by decide)

end ByteRing
